import Mathlib

/-!
# echo-rest: server composition, option layering and lifecycle

A shallow embedding of `src/echo-rest/option.go` and `src/echo-rest/rest_server.go`.

* Go strings are Lean `String`s; `<` on strings is the lexicographic order.
* Values of library types that the package only passes around (middleware functions,
  HTTP handlers, the connection multiplexer, listeners) are tokens that record how the
  source built them.
* The routing engine (`*echo.Echo`) is library code.  Its state is the record of the fields
  the package assigns plus the log of the calls the package makes on it, in call order.
  What the library answers (`Routes()`, `Start`, `Shutdown`, `sort.Slice`) is passed in
  as a function.
* Output effects (log lines, hook invocations, panics) are returned as explicit traces.
* A `[]echo.MiddlewareFunc` is a Go slice: a window on a backing array that other slices may
  share. The backing arrays live in an explicit `Memory` that is threaded through the code
  that stores, reads or appends slices.
-/

namespace EchoRest

/-! ## Library values -/

/-- The fields of `env.BaseEnv()` that `getDefaultOption` reads. -/
structure Env where
  CORSAllowMethods : String
  CORSAllowHeaders : String
  CORSAllowOrigins : String
  CORSAllowCredential : String
  JaegerMaxPacketSize : Int
  DebugMode : Bool

/-- An `echo.MiddlewareFunc`, identified by the expression that builds it. -/
inductive MiddlewareFunc where
  /-- `echo.WrapMiddleware(wrapper.HTTPMiddlewareCORS(methods, headers, origins, nil, credential))` -/
  | cors (methods headers origins credential : String)
  /-- `EchoWrapMiddleware(wrapper.HTTPMiddlewareTracer(cfg))` with `MaxLogSize`, `ExcludePath` -/
  | tracer (maxLogSize : Int) (excludePath : List String)
  /-- `EchoLoggerMiddleware(debug, os.Stdout)` -/
  | logger (debug : Bool)
  /-- `echo.WrapMiddleware(service.GetDependency().GetMiddleware().HTTPBasicAuth)` -/
  | basicAuth
  /-- A middleware supplied by the caller. -/
  | custom (id : Nat)
  deriving DecidableEq, Repr

/-- The sub-configuration `graphqlserver.Option`; its fields are library-defined. -/
structure GraphqlOption where
  settings : List (String × String)
  deriving DecidableEq, Repr

/-- An `http.Handler`, identified by the expression that builds it. -/
inductive Handler where
  /-- `http.HandlerFunc(wrapper.HTTPHandlerDefaultRoot)` -/
  | defaultRoot
  /-- `http.HandlerFunc(wrapper.HTTPHandlerMemstats)` -/
  | memstats
  /-- `graphqlHandler.ServeGraphQL()` of the handler constructed with the given sub-options -/
  | serveGraphQL (g : GraphqlOption)
  /-- `http.HandlerFunc(graphqlHandler.ServePlayground)` -/
  | servePlayground (g : GraphqlOption)
  /-- `http.HandlerFunc(graphqlHandler.ServeVoyager)` -/
  | serveVoyager (g : GraphqlOption)
  /-- A handler supplied by the caller. -/
  | custom (id : Nat)
  deriving DecidableEq, Repr

/-- A non-nil Go `error`, split by the dynamic types the package inspects.
`text` is what the value's `Error()` method returns. -/
inductive GoError where
  /-- `*echo.HTTPError` with its `Code` -/
  | httpError (code : Int) (text : String)
  /-- `*net.OpError` -/
  | opError (text : String)
  /-- any other dynamic type -/
  | other (text : String)
  deriving DecidableEq, Repr

/-- The method `err.Error()`. -/
def GoError.Error : GoError → String
  | .httpError _ text => text
  | .opError text => text
  | .other text => text

/-- The parts of `c.Request()` that the error handler reads. -/
structure Request where
  Method : String
  Path : String
  deriving DecidableEq, Repr

/-- The response `wrapper.NewHTTPResponse(code, message).JSON(w)` writes: status `code`,
body message `message`. -/
structure HTTPResponse where
  Code : Int
  Message : String
  deriving DecidableEq, Repr

/-- The type `echo.HTTPErrorHandler`; a nil `error` is `none`. -/
abbrev HTTPErrorHandler := Option GoError → Request → HTTPResponse

/-- A match rule given to `cmux.CMux.Match`. -/
inductive Matcher where
  /-- `cmux.HTTP1Fast(extMethods...)` -/
  | HTTP1Fast (extMethods : List String)
  deriving DecidableEq, Repr

/-- A non-nil `cmux.CMux`. -/
structure CMux where
  id : Nat
  deriving DecidableEq, Repr

/-- A non-nil `net.Listener`. -/
inductive Listener where
  /-- the sub-listener `cm.Match(m)` -/
  | matched (cm : CMux) (m : Matcher)
  deriving DecidableEq, Repr

/-- The method `Match` of `cmux.CMux`. -/
def CMux.Match (cm : CMux) (m : Matcher) : Listener := Listener.matched cm m

/-- The constant `http.MethodPatch`. -/
def MethodPatch : String := "PATCH"

/-- The constant `http.StatusInternalServerError`. -/
def StatusInternalServerError : Int := 500

/-- The constant `http.StatusNotFound`. -/
def StatusNotFound : Int := 404

/-- A call the package makes on the routing engine or on its root group. -/
inductive EchoCall where
  /-- `e.Use(ms...)` -/
  | use (ms : List MiddlewareFunc)
  /-- `e.GET(path, echo.WrapHandler(h), ms...)` -/
  | get (path : String) (h : Handler) (ms : List MiddlewareFunc)
  /-- `e.Any(path, echo.WrapHandler(h))` -/
  | any (path : String) (h : Handler)
  /-- `e.Group(pfx)` -/
  | group (pfx : String)
  /-- a registration made by caller code (a module hook or the engine callback) -/
  | extra (method path name : String)
  deriving DecidableEq, Repr

/-- The engine `*echo.Echo`. -/
structure Echo where
  HTTPErrorHandler : Option HTTPErrorHandler
  Listener : Option Listener
  HideBanner : Bool
  HidePort : Bool
  calls : List EchoCall

/-- The call `echo.New()`: no calls made yet. The library's own initial error handler is not
observed by the package, which overwrites the field before use. -/
def Echo.New : Echo :=
  { HTTPErrorHandler := none, Listener := none, HideBanner := false, HidePort := false,
    calls := [] }

/-- Records one call on the engine. -/
def Echo.call (e : Echo) (c : EchoCall) : Echo := { e with calls := e.calls ++ [c] }

/-- An element of `e.Routes()`. -/
structure Route where
  Method : String
  Path : String
  Name : String
  deriving DecidableEq, Repr

/-! ## Slices of middlewares -/

/-- A `[]echo.MiddlewareFunc` value: the backing array, the index of the first element, the
length, and the capacity left after the last element (`cap = len + spare`). The nil slice
has length and capacity 0. -/
structure Slice where
  arr : Nat
  off : Nat
  len : Nat
  spare : Nat
  deriving DecidableEq, Repr

/-- The nil slice. -/
def Slice.nil : Slice := { arr := 0, off := 0, len := 0, spare := 0 }

/-- The capacity `cap(s)`. -/
def Slice.cap (s : Slice) : Nat := s.len + s.spare

/-- The slice expression `s[:n]` for `n ≤ len(s)`: same array, same capacity. -/
def Slice.upTo (s : Slice) (n : Nat) : Slice :=
  { s with len := n, spare := s.spare + (s.len - n) }

/-- The backing arrays of all middleware slices. `cells a i` is element `i` of array `a`,
arrays below `next` are allocated, and `growSpare oldCap needed` is the capacity `append`
leaves free when it has to move a slice of capacity `oldCap` to a new array holding `needed`
elements (the Go runtime chooses it). -/
structure Memory where
  cells : Nat → Nat → MiddlewareFunc
  next : Nat
  growSpare : Nat → Nat → Nat

/-- The elements of a slice, in order. -/
def Memory.read (mem : Memory) (s : Slice) : List MiddlewareFunc :=
  (List.range s.len).map (fun i => mem.cells s.arr (s.off + i))

/-- Writes `vs` into array `a` from index `pos` on. -/
def Memory.store (mem : Memory) (a pos : Nat) (vs : List MiddlewareFunc) : Memory :=
  { mem with
    cells := fun a2 i =>
      if a2 = a ∧ pos ≤ i ∧ i < pos + vs.length then vs.getD (i - pos) (mem.cells a2 i)
      else mem.cells a2 i }

/-- Allocates a new array holding `vs` followed by `spare` free places, as a slice literal or
a call with individually listed variadic arguments does (then with `spare = 0`). -/
def Memory.alloc (mem : Memory) (vs : List MiddlewareFunc) (spare : Nat) : Memory × Slice :=
  ({ mem.store mem.next 0 vs with next := mem.next + 1 },
   { arr := mem.next, off := 0, len := vs.length, spare := spare })

/-- The built-in `append(s, vs...)`: when the capacity of `s` suffices the new elements are
written into the backing array of `s` right after its last element; otherwise the elements
of `s` and the new ones go to a newly allocated array. -/
def Memory.append (mem : Memory) (s : Slice) (vs : List MiddlewareFunc) : Memory × Slice :=
  if vs.length ≤ s.spare then
    (mem.store s.arr (s.off + s.len) vs,
     { s with len := s.len + vs.length, spare := s.spare - vs.length })
  else
    mem.alloc (mem.read s ++ vs) (mem.growSpare s.cap (s.len + vs.length))

/-! ## option.go -/

/-- The constant `EchoREST`. -/
def EchoREST : String := "echo-rest"

/-- The struct `option`. Nil-able fields are `Option`s. -/
structure option where
  rootMiddlewares : Slice
  rootHandler : Handler
  errorHandler : Option HTTPErrorHandler
  httpPort : Nat
  rootPath : String
  debugMode : Bool
  includeGraphQL : Bool
  jaegerMaxPacketSize : Int
  sharedListener : Option CMux
  engineOption : Option (Echo → Echo)
  graphqlOption : GraphqlOption

/-- The type `OptionFunc`: `func(*option)` as a transformer of the memory and the struct. -/
abbrev OptionFunc := Memory → option → Memory × option

/-- The function `CustomHTTPErrorHandler`; the result is the response it writes. -/
def CustomHTTPErrorHandler (err : Option GoError) (c : Request) : HTTPResponse :=
  let message : String := ""
  let code : Int := StatusInternalServerError
  let message := match err with
    | some e => e.Error
    | none => message
  match err with
  | some (GoError.httpError heCode _) =>
    let code := heCode
    let message :=
      if code = StatusNotFound then
        "Resource \"" ++ c.Method ++ " " ++ c.Path ++ "\" not found"
      else message
    { Code := code, Message := message }
  | _ => { Code := code, Message := message }

/-- The elements of the slice literal in `getDefaultOption`. -/
def defaultMiddlewares (env : Env) : List MiddlewareFunc :=
  [ MiddlewareFunc.cors env.CORSAllowMethods env.CORSAllowHeaders env.CORSAllowOrigins
      env.CORSAllowCredential,
    MiddlewareFunc.tracer env.JaegerMaxPacketSize ["/", "/graphql"],
    MiddlewareFunc.logger env.DebugMode ]

/-- The function `getDefaultOption`, with the process environment as an argument. The slice
literal allocates a new array of three elements. -/
def getDefaultOption (env : Env) (mem : Memory) : Memory × option :=
  let lit := mem.alloc (defaultMiddlewares env) 0
  (lit.1,
   { httpPort := 8000
     rootPath := ""
     debugMode := true
     rootMiddlewares := lit.2
     rootHandler := Handler.defaultRoot
     errorHandler := some CustomHTTPErrorHandler
     includeGraphQL := false
     jaegerMaxPacketSize := 0
     sharedListener := none
     engineOption := none
     graphqlOption := { settings := [] } })

/-- The function `SetHTTPPort`. -/
def SetHTTPPort (port : Nat) : OptionFunc := fun mem o => (mem, { o with httpPort := port })

/-- The function `SetRootPath`. -/
def SetRootPath (rootPath : String) : OptionFunc :=
  fun mem o => (mem, { o with rootPath := rootPath })

/-- The function `SetSharedListener`. -/
def SetSharedListener (sharedListener : Option CMux) : OptionFunc :=
  fun mem o => (mem, { o with sharedListener := sharedListener })

/-- The function `SetIncludeGraphQL`. -/
def SetIncludeGraphQL (includeGraphQL : Bool) : OptionFunc :=
  fun mem o => (mem, { o with includeGraphQL := includeGraphQL })

/-- The function `SetRootMiddlewares`: the variadic parameter is the caller's slice, which is
stored as it is, without a copy. -/
def SetRootMiddlewares (middlewares : Slice) : OptionFunc :=
  fun mem o => (mem, { o with rootMiddlewares := middlewares })

/-- The function `AddRootMiddlewares`: `append(o.rootMiddlewares, middlewares...)`, with the
elements of `middlewares` read when the option is applied. -/
def AddRootMiddlewares (middlewares : Slice) : OptionFunc :=
  fun mem o =>
    let r := mem.append o.rootMiddlewares (mem.read middlewares)
    (r.1, { o with rootMiddlewares := r.2 })

/-- The loop `for _, opt := range opts { opt(&server.opt) }` of `NewServer`. -/
def applyOptions : List OptionFunc → Memory → option → Memory × option
  | [], mem, o => (mem, o)
  | opt :: rest, mem, o => applyOptions rest (opt mem o).1 (opt mem o).2

/-- Lines 36 to 40 of `NewServer`: the default options, then every option in turn. The result
is the memory afterwards and the effective options. -/
def resolveOptions (env : Env) (mem : Memory) (opts : List OptionFunc) : Memory × option :=
  applyOptions opts (getDefaultOption env mem).1 (getDefaultOption env mem).2

/-- A caller slice that `append` cannot extend in place: it has no capacity left, and it is
empty or its array was allocated before `mem.next`. Slices made from individually listed
arguments are of this kind. -/
def Slice.full (mem : Memory) (s : Slice) : Prop :=
  s.spare = 0 ∧ (s.len = 0 ∨ s.arr < mem.next)

/-- Whether a slice is full can be computed. -/
instance Slice.decidableFull (mem : Memory) (s : Slice) : Decidable (s.full mem) := by
  unfold Slice.full
  infer_instance

/-! ## rest_server.go -/

/-- The router group returned by `e.Group(pfx)`. -/
structure Group where
  pfx : String
  deriving DecidableEq, Repr

/-- The struct `routeWrapper`. -/
structure routeWrapper where
  router : Group
  deriving DecidableEq, Repr

/-- The interface `interfaces.RESTHandler`: the hook `Mount` acts on the engine that owns the
wrapped group. -/
structure RESTHandler where
  Mount : routeWrapper → Echo → Echo

/-- The interface `interfaces.ServerHandler`: the hook `MountHandlers` acts on the engine that
owns the group. -/
structure ServerHandler where
  MountHandlers : Group → Echo → Echo

/-- A module as `NewServer` uses it: two accessors, each of which may return nil. -/
structure Module where
  RESTHandler : Option RESTHandler
  ServerHandler : String → Option ServerHandler

/-- The interface `factory.ServiceFactory` as `NewServer` uses it. -/
structure ServiceFactory where
  GetModules : List Module

/-- The struct `restServer`. -/
structure restServer where
  serverEngine : Echo
  service : ServiceFactory
  listener : Option Listener
  opt : option

/-- What the libraries answer during construction. -/
structure Library where
  /-- `e.Routes()` -/
  Routes : Echo → List Route
  /-- `sort.Slice(x, less)` on the slice `x`; the result is the slice afterwards -/
  sortSlice : (Route → Route → Bool) → List Route → List Route

/-- An invocation of a mount hook, tagged with the index of the module in `GetModules()`. -/
inductive HookCall where
  /-- `m.RESTHandler().Mount(rw)` -/
  | Mount (i : Nat)
  /-- `m.ServerHandler(EchoREST).MountHandlers(restRootPath)` -/
  | MountHandlers (i : Nat)
  deriving DecidableEq, Repr

/-- The state threaded through the module loop: the engine and the hooks invoked so far. -/
structure MountState where
  engine : Echo
  hooks : List HookCall

/-- The body of the loop `for _, m := range service.GetModules()` for the module at index `i`. -/
def mountModule (rw : routeWrapper) (restRootPath : Group) (i : Nat) (m : Module)
    (st : MountState) : MountState :=
  let st := match m.RESTHandler with
    | some h => { engine := h.Mount rw st.engine, hooks := st.hooks ++ [HookCall.Mount i] }
    | none => st
  match m.ServerHandler EchoREST with
  | some h =>
    { engine := h.MountHandlers restRootPath st.engine,
      hooks := st.hooks ++ [HookCall.MountHandlers i] }
  | none => st

/-- The loop `for _, m := range service.GetModules()`, from index `i` on. -/
def mountModules (rw : routeWrapper) (restRootPath : Group) :
    List Module → Nat → MountState → MountState
  | [], _, st => st
  | m :: rest, i, st => mountModules rw restRootPath rest (i + 1) (mountModule rw restRootPath i m st)

/-- Modelled from the spec: `candihelper.StringInSlice` is library code outside `src/`; the
listing "excludes `/`, `/memstats`", so the two-argument call is exact membership. -/
def StringInSlice (str : String) (list : List String) : Bool :=
  list.any (fun v => v == str)

/-- The function `strings.Contains`. -/
def stringsContains (s substr : String) : Bool :=
  decide (substr.toList <:+: s.toList)

/-- The verb `%-Ns` of `fmt.Sprintf`: left-justified, padded with spaces to width `n`. -/
def padRight (n : Nat) (s : String) : String :=
  s ++ String.mk (List.replicate (n - s.length) ' ')

/-- The line `fmt.Sprintf("[REST-ROUTE] %-6s %-30s --> %s", route.Method, route.Path, route.Name)`. -/
def restRouteLine (route : Route) : String :=
  "[REST-ROUTE] " ++ padRight 6 route.Method ++ " " ++ padRight 30 route.Path ++ " --> " ++
    route.Name

/-- The condition under which the listing loop logs a route. -/
def isListed (route : Route) : Bool :=
  !StringInSlice route.Path ["/", "/memstats"] && !stringsContains route.Name "(*Group)"

/-- The function `logger.LogGreen`, library code outside `src/`: it writes the line to the
standard output when `env.BaseEnv().DebugMode` is set, and nothing otherwise. The result is
the lines written, without colour codes. -/
def LogGreen (env : Env) (str : String) : List String :=
  if env.DebugMode then [str] else []

/-- The loop `for _, route := range httpRoutes`: the routes for which `logger.LogGreen` is
called. -/
def listedRoutes : List Route → List Route
  | [] => []
  | route :: rest => if isListed route then route :: listedRoutes rest else listedRoutes rest

/-- The loop `for _, route := range httpRoutes`: what the calls of `logger.LogGreen` write. -/
def printRoutes (env : Env) : List Route → List String
  | [] => []
  | route :: rest =>
    if isListed route then LogGreen env (restRouteLine route) ++ printRoutes env rest
    else printRoutes env rest

/-- The comparison passed to `sort.Slice`: Go's `<` on strings, the lexicographic order on
their characters. -/
def lessPath (a b : Route) : Bool := decide (a.Path.toList < b.Path.toList)

/-- Lines 73 to 81 of `NewServer`: sort the routes by path, then log. The result is the routes
handed to the logger. -/
def startupListing (sortSlice : (Route → Route → Bool) → List Route → List Route)
    (httpRoutes : List Route) : List Route :=
  listedRoutes (sortSlice lessPath httpRoutes)

/-- Lines 73 to 81 of `NewServer`: sort the routes by path, then log. The result is the lines
written to the standard output. -/
def startupPrinted (env : Env) (sortSlice : (Route → Route → Bool) → List Route → List Route)
    (httpRoutes : List Route) : List String :=
  printRoutes env (sortSlice lessPath httpRoutes)

/-- Lines 42 to 59 of `NewServer`, entered with the effective options: the engine callback,
the error handler, the root middlewares (read from memory by `Use`), the two fixed
registrations and the root group. -/
def preMount (mem : Memory) (opt : option) : Echo :=
  let engine := Echo.New
  let engine := match opt.engineOption with
    | some f => f engine
    | none => engine
  let engine := { engine with HTTPErrorHandler := opt.errorHandler }
  let engine := engine.call (EchoCall.use (mem.read opt.rootMiddlewares))
  let engine := engine.call (EchoCall.get "/" opt.rootHandler [])
  let engine := engine.call (EchoCall.get "/memstats" Handler.memstats [MiddlewareFunc.basicAuth])
  engine.call (EchoCall.group opt.rootPath)

/-- Lines 42 to 71 of `NewServer`, entered with the effective options: the engine callback,
the listener, the fixed registrations and the module loop. The result is the server and the
hooks invoked. -/
def mountAll (mem : Memory) (service : ServiceFactory) (opt : option) :
    restServer × List HookCall :=
  let listener := match opt.sharedListener with
    | some cm => some (cm.Match (Matcher.HTTP1Fast [MethodPatch]))
    | none => none
  let engine := preMount mem opt
  let restRootPath : Group := { pfx := opt.rootPath }
  let rw : routeWrapper := { router := restRootPath }
  let st := mountModules rw restRootPath service.GetModules 0 { engine := engine, hooks := [] }
  ({ serverEngine := st.engine, service := service, listener := listener, opt := opt }, st.hooks)

/-- Lines 85 to 91 of `NewServer`: the three registrations of the query endpoint. -/
def injectGraphQL (opt : option) (engine : Echo) : Echo :=
  if opt.includeGraphQL then
    let engine := engine.call (EchoCall.any (opt.rootPath ++ "/graphql")
      (Handler.serveGraphQL opt.graphqlOption))
    let engine := engine.call (EchoCall.get (opt.rootPath ++ "/graphql/playground")
      (Handler.servePlayground opt.graphqlOption) [])
    engine.call (EchoCall.get (opt.rootPath ++ "/graphql/voyager")
      (Handler.serveVoyager opt.graphqlOption) [])
  else engine

/-- The observable result of one run of `NewServer`. -/
structure NewServerRun where
  /-- the returned server -/
  server : restServer
  /-- the mount hooks invoked, in order -/
  hooks : List HookCall
  /-- the memory when `NewServer` returns -/
  mem : Memory
  /-- the routes for which `logger.LogGreen` was called, in order -/
  listed : List Route
  /-- the lines given to `logger.LogGreen`, in order -/
  logged : List String
  /-- the `[REST-ROUTE]` lines written to the standard output, in order -/
  printed : List String
  /-- the text written by `fmt.Printf`, without its colour codes -/
  banner : String

/-- The function `NewServer`. The assignment to the package variable `restserver.URLParam`
has no effect on the result and is left out. -/
def NewServer (lib : Library) (env : Env) (mem : Memory) (service : ServiceFactory)
    (opts : List OptionFunc) : NewServerRun :=
  let resolved := resolveOptions env mem opts
  let mem := resolved.1
  let opt := resolved.2
  let built := mountAll mem service opt
  let server := built.1
  let httpRoutes := lib.Routes server.serverEngine
  let listed := startupListing lib.sortSlice httpRoutes
  let server := { server with serverEngine := injectGraphQL server.opt server.serverEngine }
  { server := server, hooks := built.2, mem := mem, listed := listed,
    logged := listed.map restRouteLine,
    printed := startupPrinted env lib.sortSlice httpRoutes,
    banner := "⇨ HTTP server run at port [::]:" ++ toString server.opt.httpPort }

/-- An effect of `Serve` or `Shutdown`. -/
inductive Event where
  /-- `h.serverEngine.Listener = l` -/
  | assignListener (l : Listener)
  /-- `h.serverEngine.Start(addr)` -/
  | start (addr : String)
  /-- `log.Panicf` with its formatted message -/
  | panic (msg : String)
  /-- `h.serverEngine.Shutdown(ctx)` -/
  | engineShutdown
  /-- `l.Close()` -/
  | listenerClose (l : Listener)
  /-- `log.Println` with its message, without colour codes -/
  | logPrintln (msg : String)
  deriving DecidableEq, Repr

/-- The observable result of one run of `Serve`. -/
structure ServeRun where
  /-- the engine as `Serve` leaves it -/
  engine : Echo
  /-- the effects, in order -/
  events : List Event
  /-- whether `Serve` ended in a panic -/
  panicked : Bool

/-- The method `Serve`. `Start` is the engine's blocking start call: given the engine and the
address it yields the error the call returns (`none` for nil). -/
def restServer.Serve (h : restServer) (Start : Echo → String → Option GoError) : ServeRun :=
  let engine := { h.serverEngine with HideBanner := true, HidePort := true }
  let (engine, events, err) :=
    match h.listener with
    | some l =>
      let engine := { engine with Listener := some l }
      (engine, [Event.assignListener l, Event.start ""], Start engine "")
    | none =>
      let addr := ":" ++ toString h.opt.httpPort
      (engine, [Event.start addr], Start engine addr)
  match err with
  | some (GoError.opError text) =>
    { engine := engine,
      events := events ++ [Event.panic ("REST Server: Unexpected Error: " ++ text)],
      panicked := true }
  | _ => { engine := engine, events := events, panicked := false }

/-- The method `Shutdown`. `engineShutdown` is the engine's `Shutdown(ctx)`, yielding the error
it returns; the deferred `log.Println` runs last. -/
def restServer.Shutdown (h : restServer) (engineShutdown : Echo → Option GoError) : List Event :=
  let deferred := [Event.logPrintln "Stopping HTTP server: SUCCESS"]
  let _ := engineShutdown h.serverEngine
  let events := [Event.engineShutdown]
  let events := match h.listener with
    | some l => events ++ [Event.listenerClose l]
    | none => events
  events ++ deferred

/-- The hook invocations the specification assigns to the module at index `i`: the declarative
hook if present, then the raw hook if present. -/
def specModuleHooks (i : Nat) (m : Module) : List HookCall :=
  (if m.RESTHandler.isSome then [HookCall.Mount i] else []) ++
    (if (m.ServerHandler EchoREST).isSome then [HookCall.MountHandlers i] else [])

/-- The hook trace the specification assigns to a module sequence whose first index is `i`:
the concatenation, in input order, of the per-module invocations. -/
def specHookTrace : Nat → List Module → List HookCall
  | _, [] => []
  | i, m :: rest => specModuleHooks i m ++ specHookTrace (i + 1) rest

/-- The hook a trace entry names, applied to the engine: the hook of the module at that index
of `modules`, and no change when there is none. -/
def applyHook (modules : List Module) (rw : routeWrapper) (restRootPath : Group) (e : Echo) :
    HookCall → Echo
  | .Mount j =>
    match modules[j]? with
    | some m =>
      (match m.RESTHandler with
       | some h => h.Mount rw e
       | none => e)
    | none => e
  | .MountHandlers j =>
    match modules[j]? with
    | some m =>
      (match m.ServerHandler EchoREST with
       | some h => h.MountHandlers restRootPath e
       | none => e)
    | none => e

/-- The position of a hook invocation in the order "module index first, declarative before
raw". -/
def HookCall.rank : HookCall → Nat
  | .Mount i => 2 * i
  | .MountHandlers i => 2 * i + 1

/-- Whether the error returned by `Start` has dynamic type `*net.OpError`. -/
def isOpError : Option GoError → Bool
  | some (GoError.opError _) => true
  | _ => false

/-- Whether an effect is a call of the engine's `Start`. -/
def Event.isStart : Event → Bool
  | .start _ => true
  | _ => false

/-- Whether an effect is a panic. -/
def Event.isPanic : Event → Bool
  | .panic _ => true
  | _ => false

/-- The three registrations of the query endpoint under root path `rootPath`. -/
def graphqlCalls (rootPath : String) (g : GraphqlOption) : List EchoCall :=
  [ EchoCall.any (rootPath ++ "/graphql") (Handler.serveGraphQL g),
    EchoCall.get (rootPath ++ "/graphql/playground") (Handler.servePlayground g) [],
    EchoCall.get (rootPath ++ "/graphql/voyager") (Handler.serveVoyager g) [] ]

/-- The path of a registration made by `NewServer` itself. -/
def EchoCall.path : EchoCall → String
  | .use _ => ""
  | .get path _ _ => path
  | .any path _ => path
  | .group pfx => pfx
  | .extra _ path _ => path

/-! ## A sample run -/

/-- A sample environment. -/
def sampleEnv : Env :=
  { CORSAllowMethods := "GET,POST", CORSAllowHeaders := "*", CORSAllowOrigins := "*",
    CORSAllowCredential := "false", JaegerMaxPacketSize := 65000, DebugMode := true }

/-- A sample module with both hooks: the declarative hook registers `GET pfx/user`, the raw
hook registers `POST pfx/auth`. -/
def sampleModuleBoth : Module :=
  { RESTHandler := some
      { Mount := fun rw e =>
          e.call (EchoCall.extra "GET" (rw.router.pfx ++ "/user") "user.get") }
    ServerHandler := fun t =>
      if t = EchoREST then
        some { MountHandlers := fun g e =>
          e.call (EchoCall.extra "POST" (g.pfx ++ "/auth") "auth.login") }
      else none }

/-- A sample module with no hook. -/
def sampleModuleNone : Module :=
  { RESTHandler := none, ServerHandler := fun _ => none }

/-- A sample module with the raw hook only, registering `GET pfx/ping`. -/
def sampleModuleRaw : Module :=
  { RESTHandler := none
    ServerHandler := fun t =>
      if t = EchoREST then
        some { MountHandlers := fun g e =>
          e.call (EchoCall.extra "GET" (g.pfx ++ "/ping") "ping.get") }
      else none }

/-- A sample service. -/
def sampleService : ServiceFactory :=
  { GetModules := [sampleModuleBoth, sampleModuleNone, sampleModuleRaw] }

/-- A sample answer of `e.Routes()`: one entry per `GET`, `Any` and caller registration, and
one catch-all entry per group, in reverse order of registration. -/
def sampleRoutes (e : Echo) : List Route :=
  (e.calls.map (fun c =>
    match c with
    | EchoCall.use _ => []
    | EchoCall.get path _ _ => [{ Method := "GET", Path := path, Name := "echo.WrapHandler" }]
    | EchoCall.any path _ => [{ Method := "POST", Path := path, Name := "echo.WrapHandler" }]
    | EchoCall.group pfx =>
      [{ Method := "GET", Path := pfx ++ "/*", Name := "echo.(*Group).Use.func1" }]
    | EchoCall.extra method path name =>
      [{ Method := method, Path := path, Name := name }])).flatten.reverse

/-- A sample library: `sort.Slice` as insertion sort with the given comparison. -/
def sampleLibrary : Library :=
  { Routes := sampleRoutes
    sortSlice := fun less x => x.insertionSort (fun a b => less b a = false) }

/-- A sample memory without any array; `append` doubles the length when it reallocates. -/
def sampleMemory : Memory :=
  { cells := fun _ _ => MiddlewareFunc.custom 0, next := 0, growSpare := fun _ needed => needed }

/-- A sample environment with debug mode off. -/
def quietEnv : Env := { sampleEnv with DebugMode := false }

/-- A sample server with a claimed listener. -/
def sampleServer : restServer :=
  (NewServer sampleLibrary sampleEnv sampleMemory sampleService
    [SetSharedListener (some { id := 1 }), SetHTTPPort 9000]).server

/-- The caller's memory in the aliasing example: array 0 holds `full = [c1, c2]`, array 1
holds the single argument `c9` of the `AddRootMiddlewares` call. -/
def aliasMemory : Memory :=
  ((sampleMemory.alloc [MiddlewareFunc.custom 1, MiddlewareFunc.custom 2] 0).1.alloc
    [MiddlewareFunc.custom 9] 0).1

/-- The slice `full` of the aliasing example. -/
def aliasFull : Slice := { arr := 0, off := 0, len := 2, spare := 0 }

/-- The slice holding the single argument `c9`. -/
def aliasNine : Slice := { arr := 1, off := 0, len := 1, spare := 0 }

/-- A store puts element `k` of `vs` at index `pos + k`. -/
lemma cells_store_of_range (mem : Memory) (a pos : Nat) (vs : List MiddlewareFunc)
    (k : Nat) (hk : k < vs.length) :
    (mem.store a pos vs).cells a (pos + k) = vs[k] := by
  have hc : a = a ∧ pos ≤ pos + k ∧ pos + k < pos + vs.length := ⟨rfl, by omega, by omega⟩
  have e : pos + k - pos = k := by omega
  show (if a = a ∧ pos ≤ pos + k ∧ pos + k < pos + vs.length then
      vs.getD (pos + k - pos) (mem.cells a (pos + k)) else mem.cells a (pos + k)) = vs[k]
  rw [if_pos hc, e, List.getD_eq_getElem _ _ hk]

/-- Reading the window that was just written gives back what was written. -/
lemma read_store_exact (mem : Memory) (a pos : Nat) (vs : List MiddlewareFunc) (nx sp : Nat) :
    Memory.read { mem.store a pos vs with next := nx }
      { arr := a, off := pos, len := vs.length, spare := sp } = vs := by
  apply List.ext_getElem
  · simp [Memory.read]
  · intro n h1 h2
    simp only [Memory.read, List.getElem_map, List.getElem_range]
    exact cells_store_of_range mem a pos vs n h2

/-- What `alloc` returns reads as the allocated elements. -/
lemma read_alloc (mem : Memory) (vs : List MiddlewareFunc) (sp : Nat) :
    (mem.alloc vs sp).1.read (mem.alloc vs sp).2 = vs :=
  read_store_exact mem mem.next 0 vs (mem.next + 1) sp

/-- Applying a sequence extended by one option applies that option last. -/
lemma applyOptions_append_singleton (opts : List OptionFunc) (f : OptionFunc) (mem : Memory)
    (o : option) :
    applyOptions (opts ++ [f]) mem o
      = f (applyOptions opts mem o).1 (applyOptions opts mem o).2 := by
  induction opts generalizing mem o with
  | nil => rfl
  | cons g rest ih => simpa [applyOptions] using ih (g mem o).1 (g mem o).2

/-- Resolving a sequence extended by one option applies that option last. -/
lemma resolveOptions_append_singleton (env : Env) (mem : Memory) (opts : List OptionFunc)
    (f : OptionFunc) :
    resolveOptions env mem (opts ++ [f])
      = f (resolveOptions env mem opts).1 (resolveOptions env mem opts).2 :=
  applyOptions_append_singleton opts f _ _

/-- C7: with no options, the effective configuration has port 8000, an empty root path, debug
mode on, `CustomHTTPErrorHandler` as error handler, the default root handler, and exactly the
three middlewares CORS, tracing, logging in this order. -/
theorem default_configuration (lib : Library) (env : Env) (mem : Memory)
    (service : ServiceFactory) :
    let run := NewServer lib env mem service []
    let opt := run.server.opt
    opt.httpPort = 8000 ∧ opt.rootPath = "" ∧ opt.debugMode = true
      ∧ opt.errorHandler = some CustomHTTPErrorHandler
      ∧ opt.rootHandler = Handler.defaultRoot
      ∧ (run.mem.read opt.rootMiddlewares).length = 3
      ∧ opt.rootMiddlewares.len = 3
      ∧ run.mem.read opt.rootMiddlewares =
          [ MiddlewareFunc.cors env.CORSAllowMethods env.CORSAllowHeaders env.CORSAllowOrigins
              env.CORSAllowCredential,
            MiddlewareFunc.tracer env.JaegerMaxPacketSize ["/", "/graphql"],
            MiddlewareFunc.logger env.DebugMode ] := by
  intro run opt
  have hr : run.mem.read opt.rootMiddlewares = defaultMiddlewares env :=
    read_alloc mem (defaultMiddlewares env) 0
  exact ⟨rfl, rfl, rfl, rfl, rfl, by rw [hr]; rfl, rfl, hr⟩

/-! ## Error translation -/

/-- C4: for a request with method `M` and path `P`, an `*echo.HTTPError` with code 404 yields
status 404 and the message `Resource "M P" not found`; any other non-nil error yields its own
text as message, with the `HTTPError` code if it is an `*echo.HTTPError` and 500 otherwise. -/
theorem CustomHTTPErrorHandler_response (err : GoError) (c : Request) :
    CustomHTTPErrorHandler (some err) c =
      match err with
      | GoError.httpError code _ =>
        if code = 404 then
          { Code := 404, Message := "Resource \"" ++ c.Method ++ " " ++ c.Path ++ "\" not found" }
        else { Code := code, Message := err.Error }
      | _ => { Code := 500, Message := err.Error } := by
  cases err with
  | httpError code text =>
    by_cases h : code = 404
    · subst h; simp [CustomHTTPErrorHandler, StatusNotFound]
    · simp [CustomHTTPErrorHandler, StatusNotFound, h, GoError.Error]
  | opError text => rfl
  | other text => rfl

/-! ## Module mounting -/

/-- One loop iteration appends exactly the invocations the specification assigns to it. -/
lemma mountModule_hooks (rw : routeWrapper) (g : Group) (i : Nat) (m : Module) (st : MountState) :
    (mountModule rw g i m st).hooks = st.hooks ++ specModuleHooks i m := by
  unfold mountModule specModuleHooks
  cases h1 : m.RESTHandler <;> cases h2 : m.ServerHandler EchoREST <;> simp

/-- The loop appends the specified trace to the hooks invoked so far. -/
lemma mountModules_hooks (rw : routeWrapper) (g : Group) (ms : List Module) (i : Nat)
    (st : MountState) :
    (mountModules rw g ms i st).hooks = st.hooks ++ specHookTrace i ms := by
  induction ms generalizing i st with
  | nil => simp [mountModules, specHookTrace]
  | cons m rest ih =>
    simp only [mountModules, specHookTrace]
    rw [ih, mountModule_hooks, List.append_assoc]

/-- Every invocation in the specified trace from index `i` has rank at least `2 * i`. -/
lemma rank_ge_of_mem_specHookTrace (ms : List Module) (i : Nat) (c : HookCall)
    (hc : c ∈ specHookTrace i ms) : 2 * i ≤ c.rank := by
  induction ms generalizing i with
  | nil => simp [specHookTrace] at hc
  | cons m rest ih =>
    simp only [specHookTrace, List.mem_append] at hc
    rcases hc with hc | hc
    · unfold specModuleHooks at hc
      simp only [List.mem_append] at hc
      rcases hc with hc | hc
      · split at hc
        · simp only [List.mem_singleton] at hc; subst hc; simp [HookCall.rank]
        · simp at hc
      · split at hc
        · simp only [List.mem_singleton] at hc; subst hc; simp [HookCall.rank]
        · simp at hc
    · have := ih (i + 1) hc
      omega

/-- Every invocation of the module at index `i` has rank below `2 * (i + 1)`. -/
lemma rank_lt_of_mem_specModuleHooks (m : Module) (i : Nat) (c : HookCall)
    (hc : c ∈ specModuleHooks i m) : c.rank < 2 * (i + 1) := by
  unfold specModuleHooks at hc
  simp only [List.mem_append] at hc
  rcases hc with hc | hc
  · split at hc
    · simp only [List.mem_singleton] at hc; subst hc; simp only [HookCall.rank]; omega
    · simp at hc
  · split at hc
    · simp only [List.mem_singleton] at hc; subst hc; simp only [HookCall.rank]; omega
    · simp at hc

/-- The invocations of one module are strictly increasing in rank. -/
lemma specModuleHooks_pairwise (m : Module) (i : Nat) :
    (specModuleHooks i m).Pairwise (fun a b => a.rank < b.rank) := by
  unfold specModuleHooks
  cases m.RESTHandler <;> cases m.ServerHandler EchoREST <;> simp [HookCall.rank]

/-- The specified trace is strictly increasing in rank. -/
lemma specHookTrace_pairwise (ms : List Module) (i : Nat) :
    (specHookTrace i ms).Pairwise (fun a b => a.rank < b.rank) := by
  induction ms generalizing i with
  | nil => simp [specHookTrace]
  | cons m rest ih =>
    simp only [specHookTrace]
    rw [List.pairwise_append]
    refine ⟨specModuleHooks_pairwise m i, ih (i + 1), ?_⟩
    intro a ha b hb
    have h1 := rank_lt_of_mem_specModuleHooks m i a ha
    have h2 := rank_ge_of_mem_specHookTrace rest (i + 1) b hb
    omega

/-- The declarative hook of index `j` is in the specified trace exactly when the module at that
position has one. -/
lemma Mount_mem_specHookTrace (ms : List Module) (i j : Nat) :
    HookCall.Mount j ∈ specHookTrace i ms ↔
      i ≤ j ∧ ∃ m, ms[j - i]? = some m ∧ m.RESTHandler.isSome = true := by
  induction ms generalizing i with
  | nil => simp [specHookTrace]
  | cons m rest ih =>
    simp only [specHookTrace, List.mem_append, ih]
    constructor
    · rintro (h | ⟨hle, m', hm', hs⟩)
      · unfold specModuleHooks at h
        simp only [List.mem_append] at h
        rcases h with h | h
        · split at h
          · rename_i hsome
            simp only [List.mem_singleton, HookCall.Mount.injEq] at h
            subst h
            exact ⟨le_refl _, m, by simp, hsome⟩
          · simp at h
        · split at h <;> simp at h
      · refine ⟨by omega, m', ?_, hs⟩
        have : j - i = (j - (i + 1)) + 1 := by omega
        rw [this]
        simpa using hm'
    · rintro ⟨hle, m', hm', hs⟩
      by_cases hji : j = i
      · subst hji
        left
        simp only [Nat.sub_self, List.getElem?_cons_zero, Option.some.injEq] at hm'
        subst hm'
        simp [specModuleHooks, hs]
      · right
        refine ⟨by omega, m', ?_, hs⟩
        have : j - i = (j - (i + 1)) + 1 := by omega
        rw [this] at hm'
        simpa using hm'

/-- The raw hook of index `j` is in the specified trace exactly when the module at that position
has one. -/
lemma MountHandlers_mem_specHookTrace (ms : List Module) (i j : Nat) :
    HookCall.MountHandlers j ∈ specHookTrace i ms ↔
      i ≤ j ∧ ∃ m, ms[j - i]? = some m ∧ (m.ServerHandler EchoREST).isSome = true := by
  induction ms generalizing i with
  | nil => simp [specHookTrace]
  | cons m rest ih =>
    simp only [specHookTrace, List.mem_append, ih]
    constructor
    · rintro (h | ⟨hle, m', hm', hs⟩)
      · unfold specModuleHooks at h
        simp only [List.mem_append] at h
        rcases h with h | h
        · split at h <;> simp at h
        · split at h
          · rename_i hsome
            simp only [List.mem_singleton, HookCall.MountHandlers.injEq] at h
            subst h
            exact ⟨le_refl _, m, by simp, hsome⟩
          · simp at h
      · refine ⟨by omega, m', ?_, hs⟩
        have : j - i = (j - (i + 1)) + 1 := by omega
        rw [this]
        simpa using hm'
    · rintro ⟨hle, m', hm', hs⟩
      by_cases hji : j = i
      · subst hji
        left
        simp only [Nat.sub_self, List.getElem?_cons_zero, Option.some.injEq] at hm'
        subst hm'
        simp [specModuleHooks, hs]
      · right
        refine ⟨by omega, m', ?_, hs⟩
        have : j - i = (j - (i + 1)) + 1 := by omega
        rw [this] at hm'
        simpa using hm'

/-- One loop iteration changes the engine by the hooks the specification assigns to it. -/
lemma mountModule_engine (all : List Module) (rw : routeWrapper) (g : Group) (i : Nat)
    (m : Module) (st : MountState) (hm : all[i]? = some m) :
    (mountModule rw g i m st).engine
      = (specModuleHooks i m).foldl (applyHook all rw g) st.engine := by
  unfold mountModule specModuleHooks
  cases h1 : m.RESTHandler <;> cases h2 : m.ServerHandler EchoREST <;>
    simp [applyHook, hm, h1, h2]

/-- The loop changes the engine by the hooks of the specified trace, applied in trace order. -/
lemma mountModules_engine (all : List Module) (rw : routeWrapper) (g : Group)
    (ms : List Module) (i : Nat) (st : MountState) (hms : all.drop i = ms) :
    (mountModules rw g ms i st).engine
      = (specHookTrace i ms).foldl (applyHook all rw g) st.engine := by
  induction ms generalizing i st with
  | nil => simp [mountModules, specHookTrace]
  | cons m rest ih =>
    have hm : all[i]? = some m := by
      have := congrArg (fun l => l[0]?) hms
      simpa using this
    have hrest : all.drop (i + 1) = rest := by
      have := congrArg (fun l => l.drop 1) hms
      simpa using this
    simp only [mountModules, specHookTrace, List.foldl_append]
    rw [ih (i + 1) _ hrest, mountModule_engine all rw g i m st hm]

/-- The hooks `NewServer` reports are those of the module loop started on an empty trace. -/
lemma NewServer_hooks (lib : Library) (env : Env) (mem : Memory) (service : ServiceFactory)
    (opts : List OptionFunc) :
    (NewServer lib env mem service opts).hooks = specHookTrace 0 service.GetModules := by
  simp [NewServer, mountAll, mountModules_hooks]

/-- The engine after the module loop is the engine before it, changed by the hooks of the
specified trace in trace order. -/
lemma mountAll_engine (mem : Memory) (service : ServiceFactory) (o : option) :
    (mountAll mem service o).1.serverEngine
      = (specHookTrace 0 service.GetModules).foldl
          (applyHook service.GetModules { router := { pfx := o.rootPath } }
            { pfx := o.rootPath })
          (preMount mem o) :=
  mountModules_engine service.GetModules _ _ service.GetModules 0 _ rfl

/-- The engine `NewServer` returns is the engine after the module loop, passed through the
query-endpoint block. -/
lemma NewServer_engine (lib : Library) (env : Env) (mem : Memory) (service : ServiceFactory)
    (opts : List OptionFunc) :
    (NewServer lib env mem service opts).server.serverEngine =
      injectGraphQL (resolveOptions env mem opts).2
        (mountAll (resolveOptions env mem opts).1 service
          (resolveOptions env mem opts).2).1.serverEngine := rfl

/-- C6: for every module sequence, the trace of mount-hook invocations of `NewServer` is the
input-order concatenation, per module, of the declarative hook (if its handler is non-nil)
followed by the raw hook (if its handler is non-nil). The trace is strictly increasing in
"module index, declarative before raw", so no hook runs twice, and a hook of module `j` is in
the trace exactly when module `j` exposes it. The hooks are really invoked: the engine after
the module loop is the engine before it with the hook functions named by the trace applied
one after the other, in trace order. -/
theorem mount_hook_trace (lib : Library) (env : Env) (mem : Memory) (service : ServiceFactory)
    (opts : List OptionFunc) :
    let run := NewServer lib env mem service opts
    let trace := run.hooks
    let o := (resolveOptions env mem opts).2
    let restRootPath : Group := { pfx := o.rootPath }
    let rw : routeWrapper := { router := restRootPath }
    let mounted :=
      trace.foldl (applyHook service.GetModules rw restRootPath)
        (preMount (resolveOptions env mem opts).1 o)
    trace = specHookTrace 0 service.GetModules
      ∧ trace.Pairwise (fun a b => a.rank < b.rank)
      ∧ trace.Nodup
      ∧ (∀ j, HookCall.Mount j ∈ trace ↔
            ∃ m, service.GetModules[j]? = some m ∧ m.RESTHandler.isSome = true)
      ∧ (∀ j, HookCall.MountHandlers j ∈ trace ↔
            ∃ m, service.GetModules[j]? = some m ∧ (m.ServerHandler EchoREST).isSome = true)
      ∧ (mountAll (resolveOptions env mem opts).1 service o).1.serverEngine = mounted
      ∧ run.server.serverEngine = injectGraphQL o mounted
      ∧ run.listed = startupListing lib.sortSlice (lib.Routes mounted) := by
  intro run trace o restRootPath rw mounted
  have ht : trace = specHookTrace 0 service.GetModules :=
    NewServer_hooks lib env mem service opts
  have hp := specHookTrace_pairwise service.GetModules 0
  have he : (mountAll (resolveOptions env mem opts).1 service o).1.serverEngine = mounted := by
    rw [mountAll_engine]
    show _ = trace.foldl _ _
    rw [ht]
  refine ⟨ht, ht ▸ hp, ?_, ?_, ?_, he, ?_, ?_⟩
  · rw [ht]
    exact hp.imp (fun {a b} h hab => by subst hab; exact absurd h (lt_irrefl _))
  · intro j
    rw [ht, Mount_mem_specHookTrace]
    simp
  · intro j
    rw [ht, MountHandlers_mem_specHookTrace]
    simp
  · show (NewServer lib env mem service opts).server.serverEngine = _
    rw [NewServer_engine, he]
  · rw [← he]
    rfl


/-! ## The query endpoint -/

/-- Recording a call appends it to the call log. -/
lemma calls_call (e : Echo) (c : EchoCall) : (e.call c).calls = e.calls ++ [c] := rfl

/-- The call log after the query-endpoint block. -/
lemma injectGraphQL_calls (opt : option) (engine : Echo) :
    (injectGraphQL opt engine).calls =
      engine.calls ++
        (if opt.includeGraphQL then graphqlCalls opt.rootPath opt.graphqlOption else []) := by
  unfold injectGraphQL
  split <;> simp [calls_call, graphqlCalls]

/-- The engine after the module loop does not depend on the `includeGraphQL` flag. -/
lemma mountAll_engine_flag (mem : Memory) (service : ServiceFactory) (o : option) (b : Bool) :
    (mountAll mem service (SetIncludeGraphQL b mem o).2).1.serverEngine
      = (mountAll mem service o).1.serverEngine := rfl

/-- C3: for every service and option sequence, the registrations made by `NewServer` are those
made up to the module loop followed, when `includeGraphQL` is true, by exactly three more, at
`rootPath+"/graphql"`, `rootPath+"/graphql/playground"` and `rootPath+"/graphql/voyager"`,
and by nothing when it is false. Forcing the flag on adds exactly these three to what the same
options register with the flag forced off, and the flag is off by default. -/
theorem graphql_registers_exactly_three (lib : Library) (env : Env) (mem : Memory)
    (service : ServiceFactory) (opts : List OptionFunc) :
    let o := (resolveOptions env mem opts).2
    let before := (mountAll (resolveOptions env mem opts).1 service o).1.serverEngine.calls
    let three := graphqlCalls o.rootPath o.graphqlOption
    let withOn := NewServer lib env mem service (opts ++ [SetIncludeGraphQL true])
    let withOff := NewServer lib env mem service (opts ++ [SetIncludeGraphQL false])
    (NewServer lib env mem service opts).server.serverEngine.calls
        = before ++ (if o.includeGraphQL then three else [])
      ∧ withOn.server.serverEngine.calls = withOff.server.serverEngine.calls ++ three
      ∧ withOff.server.serverEngine.calls = before
      ∧ three.length = 3
      ∧ three.map EchoCall.path =
          [o.rootPath ++ "/graphql", o.rootPath ++ "/graphql/playground",
            o.rootPath ++ "/graphql/voyager"]
      ∧ (getDefaultOption env mem).2.includeGraphQL = false
      ∧ (NewServer lib env mem service []).server.serverEngine.calls
          = (mountAll (getDefaultOption env mem).1 service
              (getDefaultOption env mem).2).1.serverEngine.calls := by
  intro o before three withOn withOff
  have hon : withOn.server.serverEngine.calls = before ++ three := by
    simp only [withOn, NewServer_engine, resolveOptions_append_singleton, injectGraphQL_calls]
    simp [SetIncludeGraphQL, before, three, o, mountAll, preMount]
  have hoff : withOff.server.serverEngine.calls = before := by
    simp only [withOff, NewServer_engine, resolveOptions_append_singleton, injectGraphQL_calls]
    simp [SetIncludeGraphQL, before, o, mountAll, preMount]
  refine ⟨?_, ?_, hoff, rfl, rfl, rfl, ?_⟩
  · simp only [NewServer_engine, injectGraphQL_calls]
  · rw [hon, hoff]
  · simp only [NewServer_engine, injectGraphQL_calls]
    simp [resolveOptions, applyOptions, getDefaultOption]

/-- C10: for every service and option sequence, the startup listing printed with
`includeGraphQL` forced on is identical to the one printed with it forced off: the listing is
computed from the engine as it is after the module loop, and the three query-endpoint
registrations are appended to that engine only afterwards. This holds for the lines handed to
the logger and for the lines written to the standard output. -/
theorem listing_ignores_graphql (lib : Library) (env : Env) (mem : Memory)
    (service : ServiceFactory) (opts : List OptionFunc) :
    let o := (resolveOptions env mem opts).2
    let before := (mountAll (resolveOptions env mem opts).1 service o).1.serverEngine
    let withOn := NewServer lib env mem service (opts ++ [SetIncludeGraphQL true])
    let withOff := NewServer lib env mem service (opts ++ [SetIncludeGraphQL false])
    withOn.logged = withOff.logged
      ∧ withOn.listed = withOff.listed
      ∧ withOn.listed = startupListing lib.sortSlice (lib.Routes before)
      ∧ withOn.logged = (startupListing lib.sortSlice (lib.Routes before)).map restRouteLine
      ∧ withOn.server.serverEngine.calls
          = before.calls ++ graphqlCalls o.rootPath o.graphqlOption
      ∧ withOn.printed = withOff.printed
      ∧ withOn.printed = startupPrinted env lib.sortSlice (lib.Routes before) := by
  intro o before withOn withOff
  have hl : withOn.listed = startupListing lib.sortSlice (lib.Routes before) := by
    simp only [withOn, NewServer, resolveOptions_append_singleton]
    rfl
  have hl2 : withOff.listed = startupListing lib.sortSlice (lib.Routes before) := by
    simp only [withOff, NewServer, resolveOptions_append_singleton]
    rfl
  have hq : withOn.printed = startupPrinted env lib.sortSlice (lib.Routes before) := by
    simp only [withOn, NewServer, resolveOptions_append_singleton]
    rfl
  have hq2 : withOff.printed = startupPrinted env lib.sortSlice (lib.Routes before) := by
    simp only [withOff, NewServer, resolveOptions_append_singleton]
    rfl
  have hg : withOn.logged = withOn.listed.map restRouteLine := rfl
  have hg2 : withOff.logged = withOff.listed.map restRouteLine := rfl
  refine ⟨by rw [hg, hg2, hl, hl2], by rw [hl, hl2], hl, by rw [hg, hl], ?_,
    by rw [hq, hq2], hq⟩
  simp only [withOn, NewServer_engine, resolveOptions_append_singleton, injectGraphQL_calls]
  simp [SetIncludeGraphQL, before, o, mountAll, preMount]

/-! ## Lifecycle -/

/-- The effects of `Serve` other than the panic. -/
lemma Serve_events_filter (h : restServer) (Start : Echo → String → Option GoError) :
    (h.Serve Start).events.filter (fun e => !e.isPanic) =
      match h.listener with
      | some l => [Event.assignListener l, Event.start ""]
      | none => [Event.start (":" ++ toString h.opt.httpPort)] := by
  unfold restServer.Serve
  cases h.listener with
  | none =>
    simp only
    split <;> simp [Event.isPanic]
  | some l =>
    simp only
    split <;> simp [Event.isPanic]

/-- The engine's `Listener` field after `Serve`. -/
lemma Serve_engine_Listener (h : restServer) (Start : Echo → String → Option GoError) :
    (h.Serve Start).engine.Listener =
      match h.listener with
      | some l => some l
      | none => h.serverEngine.Listener := by
  unfold restServer.Serve
  cases h.listener with
  | none =>
    simp only
    split <;> rfl
  | some l =>
    simp only
    split <;> rfl

/-- C9: for every option sequence, the listener of the server built by `NewServer` is the
sub-listener claimed from the effective `sharedListener` by the HTTP/1 match rule when that is
non-nil and nil otherwise. `Serve` assigns that listener to the engine and starts it with the
empty address when the listener is non-nil; otherwise it starts the engine on `":<httpPort>"`
and assigns no listener. -/
theorem listener_selection (lib : Library) (env : Env) (mem : Memory) (service : ServiceFactory)
    (opts : List OptionFunc) (Start : Echo → String → Option GoError) :
    let h := (NewServer lib env mem service opts).server
    let shared := (resolveOptions env mem opts).2.sharedListener
    h.listener = shared.map (fun cm => cm.Match (Matcher.HTTP1Fast ["PATCH"]))
      ∧ (h.listener.isSome = true ↔ shared.isSome = true)
      ∧ (h.Serve Start).events.filter (fun e => !e.isPanic) =
          (match h.listener with
           | some l => [Event.assignListener l, Event.start ""]
           | none => [Event.start (":" ++ toString h.opt.httpPort)])
      ∧ (h.Serve Start).engine.Listener =
          (match h.listener with
           | some l => some l
           | none => h.serverEngine.Listener) := by
  intro h shared
  have hl : h.listener = shared.map (fun cm => cm.Match (Matcher.HTTP1Fast ["PATCH"])) := by
    show (match shared with
      | some cm => some (cm.Match (Matcher.HTTP1Fast [MethodPatch]))
      | none => none) = _
    cases shared <;> rfl
  refine ⟨hl, ?_, Serve_events_filter h Start, Serve_engine_Listener h Start⟩
  rw [hl]
  cases shared <;> simp

/-- C5: for every behaviour of the engine's `Start`, `Serve` calls it exactly once, and ends in
a panic if and only if the error that call returned has dynamic type `*net.OpError`; for nil and
for every other error it returns normally. -/
theorem Serve_panics_iff_opError (h : restServer) (Start : Echo → String → Option GoError) :
    let run := h.Serve Start
    ∃ addr, run.events.filter Event.isStart = [Event.start addr]
      ∧ (run.panicked = true ↔ ∃ text, Start run.engine addr = some (GoError.opError text))
      ∧ (run.panicked = true ↔ ∃ msg, Event.panic msg ∈ run.events)
      ∧ (run.panicked = false ↔ isOpError (Start run.engine addr) = false) := by
  unfold restServer.Serve
  cases h.listener with
  | none =>
    refine ⟨":" ++ toString h.opt.httpPort, ?_⟩
    simp only
    split
    · rename_i text heq
      simp [Event.isStart, heq, isOpError]
    · rename_i hne
      refine ⟨by simp [Event.isStart], ?_, by simp, ?_⟩
      · simp only [Bool.false_eq_true, false_iff, not_exists]
        intro text htext
        exact hne text htext
      · simp only [true_iff]
        cases hs : Start _ _ with
        | none => rfl
        | some e =>
          cases e with
          | opError text => exact absurd hs (hne text)
          | httpError _ _ => rfl
          | other _ => rfl
  | some l =>
    refine ⟨"", ?_⟩
    simp only
    split
    · rename_i text heq
      simp [Event.isStart, heq, isOpError]
    · rename_i hne
      refine ⟨by simp [Event.isStart], ?_, by simp, ?_⟩
      · simp only [Bool.false_eq_true, false_iff, not_exists]
        intro text htext
        exact hne text htext
      · simp only [true_iff]
        cases hs : Start _ _ with
        | none => rfl
        | some e =>
          cases e with
          | opError text => exact absurd hs (hne text)
          | httpError _ _ => rfl
          | other _ => rfl

/-- C8: for every server, `Shutdown` calls the engine's `Shutdown` exactly once, whatever that
call returns, and strictly after it calls `Close` on the listener exactly once when the
listener is non-nil and never when it is nil; the deferred log line comes last. -/
theorem Shutdown_trace (h : restServer) (engineShutdown : Echo → Option GoError) :
    let events := h.Shutdown engineShutdown
    events =
        Event.engineShutdown :: (h.listener.toList.map Event.listenerClose
          ++ [Event.logPrintln "Stopping HTTP server: SUCCESS"])
      ∧ events.count Event.engineShutdown = 1
      ∧ (∀ l, events.count (Event.listenerClose l) = if h.listener = some l then 1 else 0)
      ∧ events.head? = some Event.engineShutdown := by
  intro events
  have he : events =
      Event.engineShutdown :: (h.listener.toList.map Event.listenerClose
        ++ [Event.logPrintln "Stopping HTTP server: SUCCESS"]) := by
    show h.Shutdown engineShutdown = _
    unfold restServer.Shutdown
    cases h.listener <;> rfl
  refine ⟨he, ?_, ?_, ?_⟩
  · rw [he]
    cases h.listener <;> simp [List.count_cons]
  · intro l
    rw [he]
    cases hl : h.listener with
    | none => simp [List.count_cons]
    | some l2 =>
      by_cases hll : l2 = l
      · subst hll; simp [List.count_cons]
      · have : ¬ (l = l2) := fun h => hll h.symm
        simp [List.count_cons, hll, this]
  · rw [he]; rfl


/-! ## The startup listing -/

/-- The logging loop keeps exactly the routes that satisfy the listing condition. -/
lemma listedRoutes_eq_filter (rs : List Route) : listedRoutes rs = rs.filter isListed := by
  induction rs with
  | nil => rfl
  | cons r rest ih =>
    unfold listedRoutes
    by_cases h : isListed r = true
    · simp [h, ih]
    · simp [h, ih]

/-- What the loop writes: the lines of the listed routes when debug mode is on, nothing when
it is off. -/
lemma printRoutes_eq (env : Env) (rs : List Route) :
    printRoutes env rs =
      if env.DebugMode then (listedRoutes rs).map restRouteLine else [] := by
  induction rs with
  | nil => simp [printRoutes, listedRoutes]
  | cons r rest ih =>
    unfold printRoutes listedRoutes
    by_cases h : isListed r = true <;> by_cases hd : env.DebugMode = true <;>
      simp [h, hd, ih, LogGreen]

/-- The listing condition, spelled out. -/
lemma isListed_iff (r : Route) :
    isListed r = true ↔
      r.Path ≠ "/" ∧ r.Path ≠ "/memstats" ∧ ¬ "(*Group)".toList <:+: r.Name.toList := by
  unfold isListed StringInSlice stringsContains
  simp only [List.any_cons, List.any_nil, Bool.or_false, Bool.and_eq_true, Bool.not_eq_true',
    Bool.or_eq_false_iff, beq_eq_false_iff_ne, ne_eq, decide_eq_false_iff_not]
  constructor
  · rintro ⟨⟨h1, h2⟩, h3⟩
    exact ⟨fun h => h1 h.symm, fun h => h2 h.symm, h3⟩
  · rintro ⟨h1, h2, h3⟩
    exact ⟨⟨fun h => h1 h.symm, fun h => h2 h.symm⟩, h3⟩

/-- The comparison `lessPath b a` fails exactly when `a` is at most `b` by path. -/
lemma lessPath_eq_false_iff (a b : Route) : lessPath b a = false ↔ a.Path ≤ b.Path := by
  unfold lessPath
  rw [decide_eq_false_iff_not, ← String.lt_iff_toList_lt, not_lt]

/-- A slice without adjacent inversions is in non-decreasing order of path. -/
lemma pairwise_le_of_chain (x : List Route)
    (h : x.Chain' (fun a b => lessPath b a = false)) :
    x.Pairwise (fun a b => a.Path ≤ b.Path) := by
  have h2 : x.Chain' (fun a b => a.Path ≤ b.Path) :=
    h.imp (fun {a b} hab => (lessPath_eq_false_iff a b).mp hab)
  haveI : IsTrans Route (fun a b => a.Path ≤ b.Path) := ⟨fun _ _ _ h1 h2 => le_trans h1 h2⟩
  exact List.chain'_iff_pairwise.mp h2

/-- C2, as amended: for every list of routes the engine reports when `NewServer` builds its
startup listing, and for a `sort.Slice` that permutes its argument and leaves no adjacent pair
out of order, the `[REST-ROUTE]` entries handed to the logger contain no route with path `/`
or `/memstats` and none whose name contains `(*Group)`, contain every other reported route
(with the same multiplicity), and are in non-decreasing lexicographic order of path. These
entries are what is printed, in this order, when the environment's debug mode is on; when it
is off nothing is printed. -/
theorem startup_listing_filtered_sorted (lib : Library)
    (hperm : ∀ x, (lib.sortSlice lessPath x).Perm x)
    (hsorted : ∀ x, (lib.sortSlice lessPath x).Chain' (fun a b => lessPath b a = false))
    (env : Env) (mem : Memory) (service : ServiceFactory) (opts : List OptionFunc) :
    let run := NewServer lib env mem service opts
    let httpRoutes :=
      lib.Routes (mountAll (resolveOptions env mem opts).1 service
        (resolveOptions env mem opts).2).1.serverEngine
    (∀ r ∈ run.listed,
        r.Path ≠ "/" ∧ r.Path ≠ "/memstats" ∧ ¬ "(*Group)".toList <:+: r.Name.toList)
      ∧ (∀ r ∈ httpRoutes,
          r ∈ run.listed ∨ r.Path = "/" ∨ r.Path = "/memstats"
            ∨ "(*Group)".toList <:+: r.Name.toList)
      ∧ run.listed.Perm (httpRoutes.filter isListed)
      ∧ run.listed.Pairwise (fun a b => a.Path ≤ b.Path)
      ∧ run.logged = run.listed.map restRouteLine
      ∧ run.printed = (if env.DebugMode then run.listed.map restRouteLine else [])
      ∧ restRouteLine { Method := "GET", Path := "/v1/ping", Name := "ping.get" }
          = "[REST-ROUTE] GET    /v1/ping                       --> ping.get" := by
  intro run httpRoutes
  have hl : run.listed = (lib.sortSlice lessPath httpRoutes).filter isListed :=
    listedRoutes_eq_filter _
  have hp : run.listed.Perm (httpRoutes.filter isListed) := by
    rw [hl]
    exact (hperm httpRoutes).filter _
  refine ⟨?_, ?_, hp, ?_, rfl, ?_, by decide⟩
  · intro r hr
    rw [hl, List.mem_filter] at hr
    exact (isListed_iff r).mp hr.2
  · intro r hr
    by_cases h : isListed r = true
    · left
      exact hp.symm.subset (List.mem_filter.mpr ⟨hr, h⟩)
    · right
      rw [isListed_iff] at h
      by_contra hcon
      push_neg at hcon
      exact h ⟨hcon.1, hcon.2.1, hcon.2.2⟩
  · rw [hl]
    exact (pairwise_le_of_chain _ (hsorted httpRoutes)).filter _
  · exact printRoutes_eq env (lib.sortSlice lessPath httpRoutes)

/-- The sample `sort.Slice` permutes its argument. -/
lemma sampleLibrary_perm (x : List Route) : (sampleLibrary.sortSlice lessPath x).Perm x :=
  List.perm_insertionSort _ x

/-- The sample `sort.Slice` leaves no adjacent pair out of order. -/
lemma sampleLibrary_sorted (x : List Route) :
    (sampleLibrary.sortSlice lessPath x).Chain' (fun a b => lessPath b a = false) := by
  haveI : IsTotal Route (fun a b => lessPath b a = false) :=
    ⟨fun a b => by simp only [lessPath_eq_false_iff]; exact le_total _ _⟩
  haveI : IsTrans Route (fun a b => lessPath b a = false) :=
    ⟨fun a b c h1 h2 => by
      rw [lessPath_eq_false_iff] at h1 h2 ⊢
      exact le_trans h1 h2⟩
  exact (List.sorted_insertionSort (fun a b => lessPath b a = false) x).chain'

/-- The amended C2 applied to the sample run with root path `/v1` and debug mode on. -/
theorem startup_listing_witness :
    (∀ x, (sampleLibrary.sortSlice lessPath x).Perm x)
      ∧ (∀ x, (sampleLibrary.sortSlice lessPath x).Chain' (fun a b => lessPath b a = false))
      ∧ (NewServer sampleLibrary sampleEnv sampleMemory sampleService
            [SetRootPath "/v1"]).listed.Pairwise (fun a b => a.Path ≤ b.Path)
      ∧ (NewServer sampleLibrary sampleEnv sampleMemory sampleService
            [SetRootPath "/v1"]).printed
          = (if sampleEnv.DebugMode then
              (NewServer sampleLibrary sampleEnv sampleMemory sampleService
                [SetRootPath "/v1"]).listed.map restRouteLine
             else []) :=
  ⟨sampleLibrary_perm, sampleLibrary_sorted,
    (startup_listing_filtered_sorted sampleLibrary sampleLibrary_perm sampleLibrary_sorted
      sampleEnv sampleMemory sampleService [SetRootPath "/v1"]).2.2.2.1,
    (startup_listing_filtered_sorted sampleLibrary sampleLibrary_perm sampleLibrary_sorted
      sampleEnv sampleMemory sampleService [SetRootPath "/v1"]).2.2.2.2.2.1⟩

/-- C2, as stated, fails when the environment's debug mode is off: the engine reports the
route `GET /v1/ping`, which is neither `/` nor `/memstats` nor a group entry, and no
`[REST-ROUTE]` entry is printed at all. -/
theorem listing_not_printed_without_debug :
    ({ Method := "GET", Path := "/v1/ping", Name := "ping.get" } : Route) ∈
        sampleLibrary.Routes
          (mountAll (resolveOptions quietEnv sampleMemory [SetRootPath "/v1"]).1 sampleService
            (resolveOptions quietEnv sampleMemory [SetRootPath "/v1"]).2).1.serverEngine
      ∧ ("/v1/ping" : String) ≠ "/" ∧ ("/v1/ping" : String) ≠ "/memstats"
      ∧ ¬ "(*Group)".toList <:+: "ping.get".toList
      ∧ (NewServer sampleLibrary quietEnv sampleMemory sampleService
          [SetRootPath "/v1"]).printed = []
      ∧ restRouteLine { Method := "GET", Path := "/v1/ping", Name := "ping.get" } ∉
          (NewServer sampleLibrary quietEnv sampleMemory sampleService
            [SetRootPath "/v1"]).printed := by
  decide

/-! ## The sample run, evaluated -/

/-- The routes the sample engine reports at listing time, with root path `/v1`. -/
theorem sample_routes_reported :
    sampleLibrary.Routes
        (mountAll (resolveOptions sampleEnv sampleMemory [SetRootPath "/v1"]).1 sampleService
          (resolveOptions sampleEnv sampleMemory [SetRootPath "/v1"]).2).1.serverEngine =
      [ { Method := "GET", Path := "/v1/ping", Name := "ping.get" },
        { Method := "POST", Path := "/v1/auth", Name := "auth.login" },
        { Method := "GET", Path := "/v1/user", Name := "user.get" },
        { Method := "GET", Path := "/v1/*", Name := "echo.(*Group).Use.func1" },
        { Method := "GET", Path := "/memstats", Name := "echo.WrapHandler" },
        { Method := "GET", Path := "/", Name := "echo.WrapHandler" } ] := by
  decide

/-- The sample listing: the two fixed routes and the group entry are left out, the rest is
sorted by path. -/
theorem sample_listing :
    (NewServer sampleLibrary sampleEnv sampleMemory sampleService [SetRootPath "/v1"]).listed =
      [ { Method := "POST", Path := "/v1/auth", Name := "auth.login" },
        { Method := "GET", Path := "/v1/ping", Name := "ping.get" },
        { Method := "GET", Path := "/v1/user", Name := "user.get" } ] := by
  decide

/-- The lines of the sample listing handed to the logger. -/
theorem sample_logged :
    (NewServer sampleLibrary sampleEnv sampleMemory sampleService [SetRootPath "/v1"]).logged =
      [ "[REST-ROUTE] POST   /v1/auth                       --> auth.login",
        "[REST-ROUTE] GET    /v1/ping                       --> ping.get",
        "[REST-ROUTE] GET    /v1/user                       --> user.get" ] := by
  decide

/-- The sample listing is the same with the query endpoint enabled. -/
theorem sample_listing_with_graphql :
    (NewServer sampleLibrary sampleEnv sampleMemory sampleService
        [SetRootPath "/v1", SetIncludeGraphQL true]).listed =
      (NewServer sampleLibrary sampleEnv sampleMemory sampleService [SetRootPath "/v1"]).listed := by
  decide

/-- The registrations of the sample run with the query endpoint enabled. -/
theorem sample_calls_with_graphql :
    (NewServer sampleLibrary sampleEnv sampleMemory sampleService
        [SetRootPath "/v1", SetIncludeGraphQL true]).server.serverEngine.calls.map EchoCall.path =
      [ "", "/", "/memstats", "/v1", "/v1/user", "/v1/auth", "/v1/ping", "/v1/graphql",
        "/v1/graphql/playground", "/v1/graphql/voyager" ] := by
  decide

/-- The hooks of the sample run: both hooks of module 0, none of module 1, the raw hook of
module 2. -/
theorem sample_hooks :
    (NewServer sampleLibrary sampleEnv sampleMemory sampleService []).hooks =
      [HookCall.Mount 0, HookCall.MountHandlers 0, HookCall.MountHandlers 2] := by
  decide

/-- The printed lines of the sample listing with debug mode on, and with debug mode off. -/
theorem sample_printed :
    (NewServer sampleLibrary sampleEnv sampleMemory sampleService [SetRootPath "/v1"]).printed =
        [ "[REST-ROUTE] POST   /v1/auth                       --> auth.login",
          "[REST-ROUTE] GET    /v1/ping                       --> ping.get",
          "[REST-ROUTE] GET    /v1/user                       --> user.get" ]
      ∧ (NewServer sampleLibrary quietEnv sampleMemory sampleService
          [SetRootPath "/v1"]).printed = [] := by
  decide

/-- A line whose method and path are longer than the column widths is not cut. -/
theorem sample_long_line :
    restRouteLine
        { Method := "OPTIONS", Path := "/v1/a/path/of/more/than/thirty/characters",
          Name := "n" }
      = "[REST-ROUTE] OPTIONS /v1/a/path/of/more/than/thirty/characters --> n" := by
  decide

/-- The engine of the sample run is the engine before the module loop with the three hooks of
the trace applied in order. -/
theorem sample_engine_calls :
    (NewServer sampleLibrary sampleEnv sampleMemory sampleService
        [SetRootPath "/v1"]).server.serverEngine.calls =
      (preMount (resolveOptions sampleEnv sampleMemory [SetRootPath "/v1"]).1
          (resolveOptions sampleEnv sampleMemory [SetRootPath "/v1"]).2).calls ++
        [ EchoCall.extra "GET" "/v1/user" "user.get",
          EchoCall.extra "POST" "/v1/auth" "auth.login",
          EchoCall.extra "GET" "/v1/ping" "ping.get" ] := by
  decide

/-- Appending in place: after `SetRootMiddlewares(full[:1]...)` the stored slice has one free
place, and `AddRootMiddlewares(c9)` writes `c9` into the caller's array, so that the caller's
`full` reads `[c1, c9]` afterwards. -/
theorem sample_append_in_place :
    (applyOptions
        [SetRootMiddlewares (aliasFull.upTo 1), AddRootMiddlewares aliasNine]
        aliasMemory (getDefaultOption sampleEnv aliasMemory).2).1.read aliasFull
      = [MiddlewareFunc.custom 1, MiddlewareFunc.custom 9]
    ∧ aliasMemory.read aliasFull = [MiddlewareFunc.custom 1, MiddlewareFunc.custom 2]
    ∧ aliasMemory.read (aliasFull.upTo 1) = [MiddlewareFunc.custom 1]
    ∧ aliasMemory.read aliasNine = [MiddlewareFunc.custom 9] := by
  decide

/-- Appending to the default chain moves it to a new array and keeps the three defaults. -/
theorem sample_append_to_default :
    (NewServer sampleLibrary sampleEnv aliasMemory sampleService
        [AddRootMiddlewares aliasNine]).mem.read
      (NewServer sampleLibrary sampleEnv aliasMemory sampleService
        [AddRootMiddlewares aliasNine]).server.opt.rootMiddlewares
      = defaultMiddlewares sampleEnv ++ [MiddlewareFunc.custom 9] := by
  decide

/-- The error responses for a 404, another `HTTPError`, and a plain error. -/
theorem sample_error_responses :
    CustomHTTPErrorHandler (some (GoError.httpError 404 "code=404, message=Not Found"))
        { Method := "GET", Path := "/nope" }
        = { Code := 404, Message := "Resource \"GET /nope\" not found" }
      ∧ CustomHTTPErrorHandler (some (GoError.httpError 401 "code=401, message=Unauthorized"))
        { Method := "GET", Path := "/memstats" }
        = { Code := 401, Message := "code=401, message=Unauthorized" }
      ∧ CustomHTTPErrorHandler (some (GoError.other "boom")) { Method := "GET", Path := "/x" }
        = { Code := 500, Message := "boom" } := by
  decide

/-- The sample server, started on its claimed listener, panics on a `*net.OpError`. -/
theorem sample_serve_opError :
    (sampleServer.Serve (fun _ _ => some (GoError.opError "listen tcp: bind"))).events =
      [ Event.assignListener
          (Listener.matched { id := 1 } (Matcher.HTTP1Fast ["PATCH"])),
        Event.start "",
        Event.panic "REST Server: Unexpected Error: listen tcp: bind" ] := by
  decide

/-- The sample server returns normally on any other error. -/
theorem sample_serve_closed :
    (sampleServer.Serve (fun _ _ => some (GoError.other "http: Server closed"))).events =
        [ Event.assignListener
            (Listener.matched { id := 1 } (Matcher.HTTP1Fast ["PATCH"])),
          Event.start "" ]
      ∧ (sampleServer.Serve (fun _ _ => some (GoError.other "http: Server closed"))).panicked
        = false := by
  decide

/-- A server without shared listener starts on its port. -/
theorem sample_serve_port :
    ((NewServer sampleLibrary sampleEnv sampleMemory sampleService []).server.Serve (fun _ _ => none)).events =
      [Event.start ":8000"] := by
  decide

/-- The effects of shutting the sample server down. -/
theorem sample_shutdown :
    sampleServer.Shutdown (fun _ => some (GoError.other "context deadline exceeded")) =
      [ Event.engineShutdown,
        Event.listenerClose (Listener.matched { id := 1 } (Matcher.HTTP1Fast ["PATCH"])),
        Event.logPrintln "Stopping HTTP server: SUCCESS" ] := by
  decide

end EchoRest
